import Mathlib

/-!
Verification development for the CourseCreator repository (an Express/JS
application that generates video-based courses: LLM structure generation,
YouTube enrichment, Postgres persistence, and a Trainstation entity-graph
export).  The JavaScript sources (`server.js`, the browser script `app.js`
and the diagnostics-instrumented server variant) are shallowly embedded
below: JS values flowing through JSON.parse are modelled by the `Json`
inductive type, machine numbers by `Nat`/`Int`/`Rat` (numeric division is
modelled as exact rational arithmetic), fallible steps by `Option`/`Except`,
and the two sources of nondeterminism (Math.random, the YouTube search
collaborator) by explicit oracle functions.
-/

namespace CourseCreator

/-- A JSON value as produced by `JSON.parse`.  Numbers are modelled as exact
rationals (every JSON numeral denotes a rational). -/
inductive Json where
  | null : Json
  | bool (b : Bool) : Json
  | num (q : ℚ) : Json
  | str (s : String) : Json
  | arr (elems : List Json) : Json
  | obj (fields : List (String × Json)) : Json

/-- Property access `j[k]` as on a parsed JS value: only objects have
properties; later duplicate keys override earlier ones (JSON.parse keeps the
last binding), everything else (including missing keys) yields `none`,
standing for JS `undefined`. -/
def Json.getProp : Json → String → Option Json
  | .obj fields, k => (fields.reverse.find? (fun p => p.1 == k)).map (·.2)
  | _, _ => none

/-- JS truthiness of a parsed JSON value: `null`, `false`, `0` and `""` are
falsy, every other JSON value is truthy. -/
def Json.truthy : Json → Bool
  | .null => false
  | .bool b => b
  | .num q => q != 0
  | .str s => s != ""
  | .arr _ => true
  | .obj _ => true

/-- `Array.isArray` on a parsed JSON value. -/
def Json.isArray : Json → Bool
  | .arr _ => true
  | _ => false

/-- Truthiness of `j.k` in JS: missing property (`undefined`) is falsy. -/
def Json.truthyProp (j : Json) (k : String) : Bool :=
  match j.getProp k with
  | some v => v.truthy
  | none => false

/-! ## Difficulty banding (app.js `getDifficultyLevel` / `getTrainstationLevel`) -/

/-- From app.js:
```js
function getDifficultyLevel(index, total) {
    const position = index / total;
    if (position < 0.33) return 'beginner';
    if (position < 0.66) return 'intermediate';
    return 'advanced';
}
``` -/
def getDifficultyLevel (index total : ℕ) : String :=
  let position : ℚ := (index : ℚ) / (total : ℚ)
  if position < 0.33 then "beginner"
  else if position < 0.66 then "intermediate"
  else "advanced"

/-- From app.js:
```js
function getTrainstationLevel(index, total) {
    const position = index / total;
    if (position < 0.33) return 'beginner';
    if (position < 0.66) return 'intermediate';
    return 'advanced';
}
``` -/
def getTrainstationLevel (index total : ℕ) : String :=
  let position : ℚ := (index : ℚ) / (total : ℚ)
  if position < 0.33 then "beginner"
  else if position < 0.66 then "intermediate"
  else "advanced"

/-! ## JSON.parse

An executable model of `JSON.parse` over `List Char`, used by the JSON
extraction step of the generation endpoints.  All parsing functions are
fuelled (fuel bounds the recursion depth; the top-level wrapper supplies
more fuel than any input can consume). -/

/-- Skip JSON whitespace (space, tab, line feed, carriage return). -/
def skipWS : List Char → List Char
  | [] => []
  | c :: rest =>
    if c == ' ' || c == '\t' || c == '\n' || c == '\r' then skipWS rest
    else c :: rest

/-- Value of a hexadecimal digit character, if it is one. -/
def hexVal (c : Char) : Option Nat :=
  let n := c.toNat
  if 48 ≤ n ∧ n ≤ 57 then some (n - 48)
  else if 97 ≤ n ∧ n ≤ 102 then some (n - 87)
  else if 65 ≤ n ∧ n ≤ 70 then some (n - 55)
  else none

/-- Longest prefix of decimal digits, together with the remaining input. -/
def takeDigits : List Char → (List Char × List Char)
  | [] => ([], [])
  | c :: rest =>
    if c.isDigit then
      let (ds, r) := takeDigits rest
      (c :: ds, r)
    else ([], c :: rest)

/-- Numeric value of a digit string. -/
def digitsToNat (ds : List Char) : Nat :=
  ds.foldl (fun n c => n * 10 + (c.toNat - '0'.toNat)) 0

/-- Parse the fraction-and-exponent tail of a JSON numeral, returning the
rational value of `intPart.frac e exp` and the remaining input. -/
def pNumTail (intPart : Nat) (neg : Bool) (cs : List Char) :
    Option (Json × List Char) :=
  let (fracDs, rest1) :=
    match cs with
    | '.' :: r => takeDigits r
    | _ => ([], cs)
  -- a dot must be followed by at least one digit
  let dotOk : Bool :=
    match cs with
    | '.' :: _ => !fracDs.isEmpty
    | _ => true
  if !dotOk then none
  else
    let mantissa : Nat := intPart * 10 ^ fracDs.length + digitsToNat fracDs
    let contExp : List Char → Option (Int × List Char) := fun r =>
      match r with
      | e :: r1 =>
        if e == 'e' || e == 'E' then
          match r1 with
          | '+' :: r2 =>
            match takeDigits r2 with
            | ([], _) => none
            | (ds, r3) => some ((digitsToNat ds : Int), r3)
          | '-' :: r2 =>
            match takeDigits r2 with
            | ([], _) => none
            | (ds, r3) => some (-(digitsToNat ds : Int), r3)
          | _ =>
            match takeDigits r1 with
            | ([], _) => none
            | (ds, r3) => some ((digitsToNat ds : Int), r3)
        else some (0, r)
      | [] => some (0, [])
    match contExp rest1 with
    | none => none
    | some (e, rest2) =>
      let q : ℚ := (if neg then -(mantissa : ℚ) else (mantissa : ℚ)) *
        (10 : ℚ) ^ (e - (fracDs.length : Int))
      some (.num q, rest2)

/-- Parse a JSON numeral (leading digits already known to start here). -/
def pNumber (cs : List Char) : Option (Json × List Char) :=
  let (neg, cs1) :=
    match cs with
    | '-' :: r => (true, r)
    | _ => (false, cs)
  match takeDigits cs1 with
  | ([], _) => none
  | (ds, rest) =>
    -- JSON forbids leading zeros in the integer part
    if ds.length > 1 && ds.headD ' ' == '0' then none
    else pNumTail (digitsToNat ds) neg rest

/-- Parse the body of a JSON string literal (after the opening quote),
returning the decoded characters and the input after the closing quote. -/
def pString : Nat → List Char → Option (List Char × List Char)
  | 0, _ => none
  | fuel + 1, cs =>
    match cs with
    | [] => none
    | '"' :: rest => some ([], rest)
    | '\\' :: e :: rest =>
      let cont : Char → List Char → Option (List Char × List Char) :=
        fun ch r => (pString fuel r).map fun p => (ch :: p.1, p.2)
      if e == '"' then cont '"' rest
      else if e == '\\' then cont '\\' rest
      else if e == '/' then cont '/' rest
      else if e == 'b' then cont (Char.ofNat 8) rest
      else if e == 'f' then cont (Char.ofNat 12) rest
      else if e == 'n' then cont '\n' rest
      else if e == 'r' then cont (Char.ofNat 13) rest
      else if e == 't' then cont '\t' rest
      else if e == 'u' then
        match rest with
        | h1 :: h2 :: h3 :: h4 :: rest2 =>
          match hexVal h1, hexVal h2, hexVal h3, hexVal h4 with
          | some n1, some n2, some n3, some n4 =>
            cont (Char.ofNat (((n1 * 16 + n2) * 16 + n3) * 16 + n4)) rest2
          | _, _, _, _ => none
        | _ => none
      else none
    | c :: rest =>
      if c.toNat < 32 then none
      else (pString fuel rest).map fun p => (c :: p.1, p.2)

mutual

/-- Parse one JSON value (after optional leading whitespace). -/
def pValue : Nat → List Char → Option (Json × List Char)
  | 0, _ => none
  | fuel + 1, input =>
    match skipWS input with
    | 't' :: 'r' :: 'u' :: 'e' :: rest => some (.bool true, rest)
    | 'f' :: 'a' :: 'l' :: 's' :: 'e' :: rest => some (.bool false, rest)
    | 'n' :: 'u' :: 'l' :: 'l' :: rest => some (.null, rest)
    | '"' :: rest => (pString fuel rest).map fun p => (.str ⟨p.1⟩, p.2)
    | '[' :: rest =>
      (match skipWS rest with
       | ']' :: rest2 => some (.arr [], rest2)
       | _ => (pElems fuel rest).map fun p => (.arr p.1, p.2))
    | '{' :: rest =>
      (match skipWS rest with
       | '}' :: rest2 => some (.obj [], rest2)
       | _ => (pMembers fuel rest).map fun p => (.obj p.1, p.2))
    | c :: rest =>
      if c == '-' || c.isDigit then pNumber (c :: rest) else none
    | [] => none

/-- Parse the elements of a nonempty JSON array (after the opening bracket). -/
def pElems : Nat → List Char → Option (List Json × List Char)
  | 0, _ => none
  | fuel + 1, cs =>
    match pValue fuel cs with
    | none => none
    | some (v, rest) =>
      match skipWS rest with
      | ',' :: rest2 => (pElems fuel rest2).map fun p => (v :: p.1, p.2)
      | ']' :: rest2 => some ([v], rest2)
      | _ => none

/-- Parse the members of a nonempty JSON object (after the opening brace). -/
def pMembers : Nat → List Char → Option (List (String × Json) × List Char)
  | 0, _ => none
  | fuel + 1, cs =>
    match skipWS cs with
    | '"' :: rest =>
      (match pString fuel rest with
       | none => none
       | some (key, rest1) =>
         match skipWS rest1 with
         | ':' :: rest2 =>
           (match pValue fuel rest2 with
            | none => none
            | some (v, rest3) =>
              match skipWS rest3 with
              | ',' :: rest4 =>
                (pMembers fuel rest4).map fun p => ((⟨key⟩, v) :: p.1, p.2)
              | '}' :: rest4 => some ([(⟨key⟩, v)], rest4)
              | _ => none)
         | _ => none)
    | _ => none

end

/-- `JSON.parse` on a character list: parse one value, allow surrounding
whitespace, require the whole input to be consumed. -/
def parseJsonChars (cs : List Char) : Option Json :=
  match pValue (cs.length * 4 + 4) cs with
  | some (v, rest) => if (skipWS rest).isEmpty then some v else none
  | none => none

/-! ## JSON extraction from the LLM response

Both generation endpoints run `responseText.match(/\{[\s\S]*\}/)` and, when a
match exists, `JSON.parse` it.  `regexSearch` models the JS regex engine on
the pattern `\{[\s\S]*\}` (no flags): try each start position from the left;
at a start position the pattern matches iff the character there is `{` and
some `}` occurs later; `[\s\S]*` is greedy, so the match extends to the last
`}` of the remaining input. -/

/-- Index of the last `}` in the input, if any. -/
def lastCloseIdx : List Char → Option Nat
  | [] => none
  | c :: rest =>
    match lastCloseIdx rest with
    | some k => some (k + 1)
    | none => if c = '}' then some 0 else none

/-- Index of the first `{` in the input, if any. -/
def firstOpenIdx : List Char → Option Nat
  | [] => none
  | c :: rest =>
    if c = '{' then some 0 else (firstOpenIdx rest).map (· + 1)

/-- Greedy completion of the pattern at a start position whose character is
`{`: `[\s\S]*` swallows everything, then backtracks to the last `}`. -/
def greedyFrom (rest : List Char) : Option (List Char) :=
  match lastCloseIdx rest with
  | some k => some ('{' :: rest.take (k + 1))
  | none => none

/-- The JS regex engine on `\{[\s\S]*\}`: leftmost start position admitting a
match, greedy extension. -/
def regexSearch : List Char → Option (List Char)
  | [] => none
  | c :: rest =>
    if c = '{' then
      match greedyFrom rest with
      | some m => some m
      | none => regexSearch rest
    else regexSearch rest

/-- The span the spec describes: the substring running from the first `{` of
the text to the last `}` of the text (none when no such span exists).  This
definition follows the spec's words; `regexSearch` follows the code. -/
def outermostSpan (cs : List Char) : Option (List Char) :=
  match firstOpenIdx cs, lastCloseIdx cs with
  | some i, some j => if i < j then some ((cs.drop i).take (j - i + 1)) else none
  | _, _ => none

/-- The JSON-extraction step shared by both generation endpoints:
```js
const jsonMatch = responseText.match(/\{[\s\S]*\}/);
if (jsonMatch) { courseStructure = JSON.parse(jsonMatch[0]); }
else { throw new Error('No JSON found in response'); }
```
with the enclosing `catch` turning both failure modes into an error response.
On failure the raw response text is carried in the error. -/
def structureParser (text : List Char) : Except (List Char) Json :=
  match regexSearch text with
  | none => .error text
  | some m =>
    match parseJsonChars m with
    | some v => .ok v
    | none => .error text

/-- Outcome of the parse phase of a generation endpoint. -/
inductive GenOutcome where
  | ok (structure_ : Json)
  | parseFailed (status : Nat) (errMsg : String) (raw : Option (List Char))

/-- Parse phase of `POST /api/generate-course` (both server variants): on
parse failure it responds
`res.status(500).json({ error: 'Failed to parse AI response', raw: responseText })`,
attaching the raw collaborator text. -/
def generateCourseParsePhase (responseText : List Char) : GenOutcome :=
  match structureParser responseText with
  | .ok v => .ok v
  | .error raw => .parseFailed 500 "Failed to parse AI response" (some raw)

/-- Parse phase of `POST /api/generate-full-course` (identical in both server
variants): on parse failure it responds
`res.status(500).json({ error: 'Failed to parse course structure' })` —
without the raw collaborator text. -/
def generateFullCourseParsePhase (responseText : List Char) : GenOutcome :=
  match structureParser responseText with
  | .ok v => .ok v
  | .error _ => .parseFailed 500 "Failed to parse course structure" none

/-! ## Video enrichment (`POST /api/generate-full-course`)

The per-skill search loop exists in two variants: the plain one in
`server.js` and the diagnostics-instrumented one in the second server file.
The YouTube collaborator is modelled as an oracle: for each skill, a
function from the term's position in the skill's `searchTerms` to the
observable outcome of that fetch. -/

/-- One item of `data.items` in a successful YouTube search response. -/
structure RawItem where
  videoId : String
  title : String
  thumbnail : String
  channelTitle : String
deriving DecidableEq

/-- Observable outcome of one YouTube search fetch: a service-level error
body (`data.error` with numeric code, message and optional machine-readable
reason `data.error.errors?.[0]?.reason`), a normal body with its (possibly
empty) `data.items`, or a transport exception thrown by `fetch`. -/
inductive SearchOutcome where
  | err (code : Int) (message : String) (reason : Option String)
  | ok (items : List RawItem)
  | exn (message : String)

/-- A video pushed onto a skill's `videos` array. -/
structure Video where
  id : String
  title : String
  thumbnail : String
  channelTitle : String
  searchTerm : String
deriving DecidableEq

/-- The `code` field of a recorded YouTube error: the numeric service code,
or the sentinel `'FETCH_ERROR'` for transport exceptions. -/
inductive ErrCode where
  | num (n : Int)
  | fetchSentinel
deriving DecidableEq

/-- An entry of the `youtubeErrors` accumulator. -/
structure ErrorInfo where
  term : String
  code : ErrCode
  message : String
  reason : Option String
deriving DecidableEq

/-- The shared mutable accumulators of the diagnostics variant. -/
structure SearchStats where
  totalSearches : Nat
  successfulSearches : Nat
  failedSearches : Nat
  youtubeErrors : List ErrorInfo
deriving DecidableEq

/-- All-zero accumulators, as initialized before the search loops. -/
def SearchStats.init : SearchStats := ⟨0, 0, 0, []⟩

/-- The per-skill term loop of the diagnostics variant, from the second
server file: for each term, `totalSearches++`; on a service error record it
(reason defaulted to `'unknown'`), `failedSearches++`, and `break` out of the
skill's loop iff the raw reason is `'quotaExceeded'`; on a body with at
least one item push a video and `successfulSearches++`; on an empty body
`failedSearches++`; on a fetch exception record a `FETCH_ERROR` entry and
`failedSearches++`.  `resp i` is the outcome of the fetch for the term at
position `i`. -/
def processTermsDebug (resp : Nat → SearchOutcome) :
    List String → Nat → SearchStats → (List Video × SearchStats)
  | [], _, st => ([], st)
  | term :: rest, i, st =>
    let st1 : SearchStats := { st with totalSearches := st.totalSearches + 1 }
    match resp i with
    | .err code msg reason =>
      let info : ErrorInfo := ⟨term, .num code, msg, some (reason.getD "unknown")⟩
      let st2 : SearchStats :=
        { st1 with failedSearches := st1.failedSearches + 1,
                   youtubeErrors := st1.youtubeErrors ++ [info] }
      if reason = some "quotaExceeded" then ([], st2)
      else processTermsDebug resp rest (i + 1) st2
    | .ok [] =>
      processTermsDebug resp rest (i + 1)
        { st1 with failedSearches := st1.failedSearches + 1 }
    | .ok (item :: _) =>
      let st2 : SearchStats :=
        { st1 with successfulSearches := st1.successfulSearches + 1 }
      let res := processTermsDebug resp rest (i + 1) st2
      (⟨item.videoId, item.title, item.thumbnail, item.channelTitle, term⟩ :: res.1,
       res.2)
    | .exn msg =>
      let info : ErrorInfo := ⟨term, .fetchSentinel, msg, none⟩
      let st2 : SearchStats :=
        { st1 with failedSearches := st1.failedSearches + 1,
                   youtubeErrors := st1.youtubeErrors ++ [info] }
      processTermsDebug resp rest (i + 1) st2

/-- A skill of the parsed course structure (full-generation mode). -/
structure Skill where
  name : String
  description : String
  searchTerms : List String
deriving DecidableEq

/-- A skill as returned by the enrichment loop: `{ ...skill, videos }`. -/
structure EnrichedSkill where
  name : String
  description : String
  searchTerms : List String
  videos : List Video
deriving DecidableEq

/-- Enrichment of all skills in the diagnostics variant.  `resps j i` is the
outcome of the fetch for term `i` of skill `j`.  The JS code runs the
per-skill loops under `Promise.all` and re-joins results in skill order;
this model executes them in skill order (one admissible interleaving —
skill loops share only the counters, whose final values are
interleaving-independent). -/
def enrichSkillsDebug (resps : Nat → Nat → SearchOutcome) :
    List Skill → Nat → SearchStats → (List EnrichedSkill × SearchStats)
  | [], _, st => ([], st)
  | sk :: rest, j, st =>
    let r1 := processTermsDebug (resps j) sk.searchTerms 0 st
    let r2 := enrichSkillsDebug resps rest (j + 1) r1.2
    (⟨sk.name, sk.description, sk.searchTerms, r1.1⟩ :: r2.1, r2.2)

/-- The `_debug` object attached to the full-course response:
`errors: youtubeErrors.length > 0 ? youtubeErrors.slice(0, 5) : undefined`. -/
structure DebugInfo where
  totalSearches : Nat
  successfulSearches : Nat
  failedSearches : Nat
  errors : Option (List ErrorInfo)
deriving DecidableEq

/-- Build the `_debug` response object from the final accumulators. -/
def mkDebugInfo (st : SearchStats) : DebugInfo :=
  ⟨st.totalSearches, st.successfulSearches, st.failedSearches,
   if st.youtubeErrors.isEmpty then none else some (st.youtubeErrors.take 5)⟩

/-- The per-skill term loop of the plain `server.js` variant: no counters,
no error records, no quota break — a term contributes a video iff its fetch
returned a body with at least one item (service-error bodies have no
`items`, exceptions are caught and skipped). -/
def processTermsSimple (resp : Nat → SearchOutcome) :
    List String → Nat → List Video
  | [], _ => []
  | term :: rest, i =>
    match resp i with
    | .ok (item :: _) =>
      ⟨item.videoId, item.title, item.thumbnail, item.channelTitle, term⟩ ::
        processTermsSimple resp rest (i + 1)
    | _ => processTermsSimple resp rest (i + 1)

/-- Enrichment of all skills in the plain `server.js` variant. -/
def enrichSkillsSimple (resps : Nat → Nat → SearchOutcome) :
    List Skill → Nat → List EnrichedSkill
  | [], _ => []
  | sk :: rest, j =>
    ⟨sk.name, sk.description, sk.searchTerms,
     processTermsSimple (resps j) sk.searchTerms 0⟩ ::
      enrichSkillsSimple resps rest (j + 1)

/-- Whether an outcome is a service error whose raw reason is
`'quotaExceeded'` (the condition of the `break`). -/
def SearchOutcome.isQuota : SearchOutcome → Bool
  | .err _ _ reason => decide (reason = some "quotaExceeded")
  | _ => false

/-! ## Course persistence (`/api/courses` endpoints, database available)

The `courses` table (`id SERIAL PRIMARY KEY, topic VARCHAR, data JSONB,
updated_at TIMESTAMP`) is modelled as a list of rows plus the serial-id
counter and a logical clock standing for `CURRENT_TIMESTAMP` (strictly
increasing across statements). -/

/-- One row of the `courses` table (`created_at` plays no role in the
claims and is omitted). -/
structure StoredRow where
  id : Nat
  topic : String
  data : Json
  updatedAt : Nat

/-- The persistent store: table rows, next serial id, logical clock. -/
structure CourseStore where
  rows : List StoredRow
  nextId : Nat
  clock : Nat

/-- The store as created by `initDb`: empty table. -/
def CourseStore.empty : CourseStore := ⟨[], 1, 1⟩

/-- Outcome of `POST /api/courses` (database-available path). -/
inductive SaveOutcome where
  | badRequest
  | saved (id : Nat)

/-- String conversion applied by the database driver when a non-string JS
value is bound to the `VARCHAR` topic parameter.  Claims only exercise
string topics; this total stand-in keeps the model total. -/
def jsParamText : Json → String
  | .null => "null"
  | .bool b => if b then "true" else "false"
  | .num q => toString q
  | .str s => s
  | .arr _ => "[array]"
  | .obj _ => "[object]"

/-- The SELECT/UPDATE-or-INSERT body of `POST /api/courses`:
```js
const existing = await pool.query('SELECT id FROM courses WHERE topic = $1', [course.topic]);
if (existing.rows.length > 0) {
  UPDATE courses SET data = $1, updated_at = CURRENT_TIMESTAMP WHERE topic = $2 RETURNING id
} else {
  INSERT INTO courses (topic, data) VALUES ($1, $2) RETURNING id
}
``` -/
def upsertByTopic (store : CourseStore) (key : String) (course : Json) :
    CourseStore × SaveOutcome :=
  if store.rows.any (fun r => r.topic == key) then
    ({ rows := store.rows.map fun r =>
         if r.topic == key then { r with data := course, updatedAt := store.clock }
         else r,
       nextId := store.nextId,
       clock := store.clock + 1 },
     .saved (((store.rows.find? (fun r => r.topic == key)).map (·.id)).getD 0))
  else
    ({ rows := store.rows ++ [⟨store.nextId, key, course, store.clock⟩],
       nextId := store.nextId + 1,
       clock := store.clock + 1 },
     .saved store.nextId)

/-- The full `POST /api/courses` handler (database-available path):
`const { course } = req.body; if (!course || !course.topic) return 400;`
then the upsert above. -/
def postCourse (store : CourseStore) (course : Option Json) :
    CourseStore × SaveOutcome :=
  match course with
  | none => (store, .badRequest)
  | some c =>
    if !c.truthy then (store, .badRequest)
    else if !c.truthyProp "topic" then (store, .badRequest)
    else upsertByTopic store (jsParamText ((c.getProp "topic").getD .null)) c

/-! ## Import / save validation (C6) -/

/-- The validation of client-side `handleImport` in app.js:
`if (!course.topic || !course.skills || !Array.isArray(course.skills)) throw`
(`InvalidCourseStructure`).  Returns `true` iff the parsed file is
accepted. -/
def handleImportAccepts (course : Json) : Bool :=
  course.truthyProp "topic" && course.truthyProp "skills" &&
    ((course.getProp "skills").getD .null).isArray

/-- The validation of server-side `POST /api/courses`:
`if (!course || !course.topic) return 400`.  Returns `true` iff the save is
accepted (`course = none` models a request body without a `course` key). -/
def serverSaveAccepts (course : Option Json) : Bool :=
  match course with
  | none => false
  | some c => c.truthy && c.truthyProp "topic"

/-! ## Identifier generation and the Trainstation export (app.js) -/

/-- Hex digit as produced by `v.toString(16)` for `v < 16`. -/
def hexChar (n : Nat) : Char :=
  Char.ofNat (if n < 10 then n + 48 else n + 87)

/-- The template string of `generateUUID`. -/
def uuidTemplate : List Char := "xxxxxxxx-xxxx-4xxx-yxxx-xxxxxxxxxxxx".data

/-- The body of `generateUUID`'s `replace(/[xy]/g, ...)` callback over the
template.  `draw k` is the value of `Math.random() * 16 | 0` at the k-th
call of `Math.random()` (reduced `% 16` to its possible range); `k` threads
the consumed-draw counter.  For `'x'` the digit is `r.toString(16)`; for
`'y'` it is `(r & 0x3 | 0x8).toString(16)`. -/
def genUUIDChars (draw : Nat → Nat) : List Char → Nat → (List Char × Nat)
  | [], k => ([], k)
  | c :: rest, k =>
    if c = 'x' then
      let r := draw k % 16
      let res := genUUIDChars draw rest (k + 1)
      (hexChar r :: res.1, res.2)
    else if c = 'y' then
      let r := draw k % 16
      let res := genUUIDChars draw rest (k + 1)
      (hexChar (r % 4 + 8) :: res.1, res.2)
    else
      let res := genUUIDChars draw rest k
      (c :: res.1, res.2)

/-- `generateUUID` from app.js, given the random stream and the number of
draws already consumed; returns the identifier and the new draw counter. -/
def generateUUID (draw : Nat → Nat) (k : Nat) : List Char × Nat :=
  genUUIDChars draw uuidTemplate k

/-- An entity of the Trainstation export.  The type-specific `attributes`
maps are flattened into optional fields (`url`, `level`, `thumbnail` are
present on video entities only). -/
structure Entity where
  id : List Char
  kind : String
  status : String
  labels : List String
  children : List (List Char)
  title : String
  description : String
  url : Option String
  level : Option String
  thumbnail : Option String
deriving DecidableEq

/-- Build the video entities and video-id list of one skill
(`skill.videos.forEach((video, videoIndex) => ...)` in
`exportToTrainstation`). -/
def exportVideos (draw : Nat → Nat) (topic skillName skillDesc : String)
    (total : Nat) : List Video → Nat → Nat → (List Entity × List (List Char) × Nat)
  | [], _, k => ([], [], k)
  | v :: rest, videoIndex, k =>
    let u := generateUUID draw k
    let e : Entity :=
      { id := u.1, kind := "video", status := "public",
        labels := [topic, skillName], children := [],
        title := v.title,
        description := if v.searchTerm == "" then skillDesc else v.searchTerm,
        url := some ("https://www.youtube.com/watch?v=" ++ v.id),
        level := some (getTrainstationLevel videoIndex total),
        thumbnail := some v.thumbnail }
    let res := exportVideos draw topic skillName skillDesc total rest (videoIndex + 1) u.2
    (e :: res.1, u.1 :: res.2.1, res.2.2)

/-- Build the entities and section-id list of the skill loop
(`currentCourse.skills.forEach((skill) => ...)`): per skill, a fresh section
id, the video entities, then the section entity whose `children` are the
video ids. -/
def exportSkills (draw : Nat → Nat) (topic : String) :
    List EnrichedSkill → Nat → (List Entity × List (List Char) × Nat)
  | [], k => ([], [], k)
  | sk :: rest, k =>
    let su := generateUUID draw k
    let vres := exportVideos draw topic sk.name sk.description
      sk.videos.length sk.videos 0 su.2
    let sectionEntity : Entity :=
      { id := su.1, kind := "section", status := "public",
        labels := [topic], children := vres.2.1,
        title := sk.name, description := sk.description,
        url := none, level := none, thumbnail := none }
    let res := exportSkills draw topic rest vres.2.2
    (vres.1 ++ sectionEntity :: res.1, su.1 :: res.2.1, res.2.2)

/-- A course as held in `currentCourse` when exporting. -/
structure Course where
  topic : String
  skills : List EnrichedSkill

/-- The export object `{ root, entities }` (the `exportedAt` timestamp and
constant `source: 'CourseCreator'` field carry no proof content). -/
structure TrainstationExport where
  root : List Char
  entities : List Entity

/-- `exportToTrainstation` from app.js: root id first, then per skill the
section id, its video entities and section entity, finally the root entity
appended last with the section ids as children. -/
def exportToTrainstation (draw : Nat → Nat) (course : Course) :
    TrainstationExport :=
  let ru := generateUUID draw 0
  let res := exportSkills draw course.topic course.skills ru.2
  let rootEntity : Entity :=
    { id := ru.1, kind := "root", status := "public",
      labels := [], children := res.2.1,
      title := course.topic,
      description := "AI-genererad kurs om " ++ course.topic,
      url := none, level := none, thumbnail := none }
  ⟨ru.1, res.1 ++ [rootEntity]⟩

/-! ## Claim-side predicates and concrete example inputs -/

/-- Rows of the store whose topic column equals `t`. -/
def topicRows (store : CourseStore) (t : String) : List StoredRow :=
  store.rows.filter (fun r => r.topic == t)

/-- The upsert invariant: at most one stored course per topic. -/
def AtMostOnePerTopic (store : CourseStore) : Prop :=
  ∀ t, (topicRows store t).length ≤ 1

/-- Every stored timestamp lies strictly before the store's current clock. -/
def ClockAhead (store : CourseStore) : Prop :=
  ∀ r ∈ store.rows, r.updatedAt < store.clock

/-- Lowercase hexadecimal digit, as produced by `Number.toString(16)`. -/
def isHexDigitChar (c : Char) : Bool :=
  (48 ≤ c.toNat && c.toNat ≤ 57) || (97 ≤ c.toNat && c.toNat ≤ 102)

/-- Example LLM response with prose around the JSON object. -/
def c1exampleText : List Char :=
  "Sure! \x7b\"topic\":\"x\",\"skills\":[]\x7d thanks".data

/-- The span from the first brace to the last brace of `c1exampleText`. -/
def c1exampleSpan : List Char :=
  "\x7b\"topic\":\"x\",\"skills\":[]\x7d".data

/-- The parsed value of `c1exampleSpan`. -/
def c1exampleVal : Json :=
  .obj [("topic", .str "x"), ("skills", .arr [])]

/-- Example response with no braces at all. -/
def c1noBraces : List Char := "no json here at all".data

/-- Example response with an unbalanced opening brace. -/
def c1unbalanced : List Char := "\x7ba:1".data

/-- A span that is not valid JSON (bare key), with surrounding prose. -/
def c1invalidJson : List Char := "xx \x7ba:1\x7d yy".data

/-- Constant-zero random stream: a possible outcome of `Math.random()`. -/
def zeroDraw : Nat → Nat := fun _ => 0

/-- A course with one skill and no videos, used against the export. -/
def oneSkillNoVideos : Course := ⟨"T", [⟨"S", "d", [], []⟩]⟩

/-- The identifier produced by `generateUUID` under constant-zero draws. -/
def zeroUUID : List Char := "00000000-0000-4000-8000-000000000000".data

/-- Search oracle whose first term hits a quota-exhaustion error and whose
second term would succeed. -/
def quotaThenSuccess : Nat → Nat → SearchOutcome := fun _ i =>
  if i = 0 then .err 403 "The request cannot be completed" (some "quotaExceeded")
  else .ok [⟨"vid2", "Title2", "thumb2", "chan2"⟩]

/-- A one-skill course structure with two search terms. -/
def twoTermSkill : Skill := ⟨"S", "d", ["t1", "t2"]⟩

/-- Search oracle for the C2 scenario: `t1` succeeds, every later term hits
the quota-exhaustion error. -/
def c2resp : Nat → SearchOutcome := fun i =>
  if i = 0 then .ok [⟨"v1", "T1", "th1", "ch1"⟩]
  else .err 403 "quota" (some "quotaExceeded")

/-- Search oracle where every fetch fails with a non-quota service error. -/
def allErrResps : Nat → Nat → SearchOutcome := fun _ _ =>
  .err 400 "bad request" (some "badRequest")

/-- A one-skill course with seven search terms (more failures than the
five-entry error cap). -/
def sevenTermSkills : List Skill := [⟨"S", "d", ["a", "b", "c", "d", "e", "f", "g"]⟩]

/-- The first five error records produced by `allErrResps` on
`sevenTermSkills`. -/
def fiveErrList : List ErrorInfo :=
  [⟨"a", .num 400, "bad request", some "badRequest"⟩,
   ⟨"b", .num 400, "bad request", some "badRequest"⟩,
   ⟨"c", .num 400, "bad request", some "badRequest"⟩,
   ⟨"d", .num 400, "bad request", some "badRequest"⟩,
   ⟨"e", .num 400, "bad request", some "badRequest"⟩]

/-- Search oracle where every fetch succeeds. -/
def allOkResps : Nat → Nat → SearchOutcome := fun _ _ =>
  .ok [⟨"vid", "Title", "thumb", "chan"⟩]

/-- A store already holding one course with topic `"X"`. -/
def c5storeEx : CourseStore := ⟨[StoredRow.mk 1 "X" .null 1], 2, 2⟩

/-- A course JSON with topic `"X"`. -/
def c5courseEx : Json := .obj [("topic", .str "X"), ("skills", .arr [])]

/-! # Theorems -/

/-- Claim C4: the difficulty label assigned to a video at position `index`
within a skill's video list of length `total` is `"beginner"` iff
`index/total < 0.33`, `"intermediate"` iff `0.33 ≤ index/total < 0.66`, and
`"advanced"` otherwise; for a skill with 10 videos, index 3 maps to
`"beginner"` and indices 4 and 6 map to `"intermediate"`; and the display
banding (`getDifficultyLevel`) and the export banding
(`getTrainstationLevel`) agree on every input. -/
theorem c4_difficulty_banding (index total : ℕ) (htotal : 0 < total) :
    (getDifficultyLevel index total = "beginner" ↔
      (index : ℚ) / (total : ℚ) < 0.33)
    ∧ (getDifficultyLevel index total = "intermediate" ↔
      (0.33 ≤ (index : ℚ) / (total : ℚ) ∧ (index : ℚ) / (total : ℚ) < 0.66))
    ∧ (getDifficultyLevel index total = "advanced" ↔
      0.66 ≤ (index : ℚ) / (total : ℚ))
    ∧ getDifficultyLevel 3 10 = "beginner"
    ∧ getDifficultyLevel 4 10 = "intermediate"
    ∧ getDifficultyLevel 6 10 = "intermediate"
    ∧ (∀ i t : ℕ, getDifficultyLevel i t = getTrainstationLevel i t) := by
  refine ⟨?_, ?_, ?_, ?_, ?_, ?_, fun i t => rfl⟩
  · by_cases h1 : (index : ℚ) / (total : ℚ) < 0.33
    · simp [getDifficultyLevel, h1]
    · by_cases h2 : (index : ℚ) / (total : ℚ) < 0.66 <;>
        simp [getDifficultyLevel, h1, h2]
  · by_cases h1 : (index : ℚ) / (total : ℚ) < 0.33
    · simp [getDifficultyLevel, h1, not_le.mpr h1]
    · by_cases h2 : (index : ℚ) / (total : ℚ) < 0.66 <;>
        simp [getDifficultyLevel, h1, h2, not_lt.mp h1]
  · by_cases h1 : (index : ℚ) / (total : ℚ) < 0.33
    · simp [getDifficultyLevel, h1,
        not_le.mpr (lt_of_lt_of_le h1 (by norm_num : (0.33 : ℚ) ≤ 0.66))]
    · by_cases h2 : (index : ℚ) / (total : ℚ) < 0.66
      · simp [getDifficultyLevel, h1, h2, not_le.mpr h2]
      · simp [getDifficultyLevel, h1, h2, not_lt.mp h2]
  · norm_num [getDifficultyLevel]
  · norm_num [getDifficultyLevel]
  · norm_num [getDifficultyLevel]

/-- Witness for C4 at a concrete input. -/
theorem c4_difficulty_banding_witness :
    getDifficultyLevel 3 10 = "beginner" ∧ getDifficultyLevel 4 10 = "intermediate" :=
  ⟨(c4_difficulty_banding 3 10 (by norm_num)).2.2.2.1,
   (c4_difficulty_banding 3 10 (by norm_num)).2.2.2.2.1⟩

/-- Claim C7 (counterexample to the claim as stated): on a collaborator
response with no parseable JSON, the full-generation path responds with the
parse error but with no raw text attached — the raw text is dropped there,
contrary to the claim that every generation path attaches it. -/
theorem c7_counterexample :
    generateFullCourseParsePhase c1noBraces =
      .parseFailed 500 "Failed to parse course structure" none := rfl

/-- Claim C7 as amended: every parse failure of the LLM's structural
response is escalated to the caller as a 500 error in both generation paths,
but only the structure-only path (`POST /api/generate-course`) attaches the
raw collaborator text to the error; the full-generation path
(`POST /api/generate-full-course`) escalates the error without the raw
text. -/
theorem c7_parse_failure_escalation (text : List Char)
    (hfail : structureParser text = .error text) :
    generateCourseParsePhase text =
      .parseFailed 500 "Failed to parse AI response" (some text)
    ∧ generateFullCourseParsePhase text =
      .parseFailed 500 "Failed to parse course structure" none := by
  unfold generateCourseParsePhase generateFullCourseParsePhase
  rw [hfail]
  exact ⟨rfl, rfl⟩

/-- Witness for C7 at a concrete failing response. -/
theorem c7_parse_failure_escalation_witness :
    generateCourseParsePhase c1noBraces =
      .parseFailed 500 "Failed to parse AI response" (some c1noBraces) :=
  (c7_parse_failure_escalation c1noBraces rfl).1

/-- When the input contains no `}`, the regex `\{[\s\S]*\}` has no match. -/
theorem regexSearch_eq_none_of_noClose :
    ∀ cs : List Char, lastCloseIdx cs = none → regexSearch cs = none := by
  intro cs
  induction cs with
  | nil => intro _; rfl
  | cons c rest ih =>
    intro h
    cases hrest : lastCloseIdx rest with
    | some k => simp [lastCloseIdx, hrest] at h
    | none =>
      have hc : ¬ c = '}' := by
        intro hcc
        simp [lastCloseIdx, hrest, hcc] at h
      by_cases hob : c = '{'
      · simp [regexSearch, hob, greedyFrom, hrest, ih hrest]
      · simp [regexSearch, hob, ih hrest]

/-- The greedy regex extraction used by the code agrees with the span the
spec describes: from the first `{` of the text to the last `}`. -/
theorem regexSearch_eq_outermostSpan :
    ∀ cs : List Char, regexSearch cs = outermostSpan cs := by
  intro cs
  induction cs with
  | nil => rfl
  | cons c rest ih =>
    by_cases hc : c = '{'
    · subst hc
      cases hrest : lastCloseIdx rest with
      | some k =>
        simp [regexSearch, outermostSpan, firstOpenIdx, lastCloseIdx,
          greedyFrom, hrest]
      | none =>
        simp [regexSearch, outermostSpan, firstOpenIdx, lastCloseIdx,
          greedyFrom, hrest, regexSearch_eq_none_of_noClose rest hrest]
    · rw [show regexSearch (c :: rest) = regexSearch rest by
        simp [regexSearch, hc]]
      rw [ih]
      cases hf : firstOpenIdx rest with
      | none => simp [outermostSpan, firstOpenIdx, hc, hf]
      | some i =>
        cases hcl : lastCloseIdx rest with
        | some k =>
          by_cases hik : i < k <;>
            simp [outermostSpan, firstOpenIdx, lastCloseIdx, hc, hf, hcl,
              hik, Nat.succ_sub_succ]
        | none =>
          by_cases hcc : c = '}'
          · subst hcc
            simp [outermostSpan, firstOpenIdx, lastCloseIdx, hf, hcl]
          · simp [outermostSpan, firstOpenIdx, lastCloseIdx, hc, hcc, hf, hcl]

/-- Claim C1: for every input text, the JSON-extraction step of the
generation endpoints takes the substring from the first `{` to the last `}`
of the text (the greedy regex equals the outermost span, not a non-greedy
match), parses it, and returns the parsed object on success; it fails — with
the raw text carried in the error (`MalformedResponse`) — both when no
`{...}` span exists and when the extracted span is not valid JSON. -/
theorem c1_json_extraction (text : List Char) :
    regexSearch text = outermostSpan text
    ∧ (outermostSpan text = none → structureParser text = .error text)
    ∧ (∀ span, outermostSpan text = some span → parseJsonChars span = none →
        structureParser text = .error text)
    ∧ (∀ span v, outermostSpan text = some span → parseJsonChars span = some v →
        structureParser text = .ok v) := by
  refine ⟨regexSearch_eq_outermostSpan text, ?_, ?_, ?_⟩
  · intro h
    unfold structureParser
    rw [regexSearch_eq_outermostSpan text, h]
  · intro span hspan hparse
    unfold structureParser
    rw [regexSearch_eq_outermostSpan text, hspan]
    simp [hparse]
  · intro span v hspan hparse
    unfold structureParser
    rw [regexSearch_eq_outermostSpan text, hspan]
    simp [hparse]

/-- Witness for C1: the spec's concrete examples.  Prose around a JSON
object parses to that object; text without braces and text with an
unbalanced `{` fail with the raw text attached; a balanced span that is not
valid JSON fails likewise. -/
theorem c1_json_extraction_witness :
    structureParser c1exampleText = .ok c1exampleVal
    ∧ structureParser c1noBraces = .error c1noBraces
    ∧ structureParser c1unbalanced = .error c1unbalanced
    ∧ structureParser c1invalidJson = .error c1invalidJson :=
  ⟨(c1_json_extraction c1exampleText).2.2.2 c1exampleSpan c1exampleVal rfl rfl,
   (c1_json_extraction c1noBraces).2.1 rfl,
   (c1_json_extraction c1unbalanced).2.1 rfl,
   (c1_json_extraction c1invalidJson).2.2.1 ("\x7ba:1\x7d".data) rfl rfl⟩

/-- The videos produced by a skill's term loop do not depend on the incoming
shared accumulators. -/
theorem processTermsDebug_fst_indep (resp : Nat → SearchOutcome) :
    ∀ (terms : List String) (i : Nat) (st st' : SearchStats),
    (processTermsDebug resp terms i st).1 = (processTermsDebug resp terms i st').1 := by
  intro terms
  induction terms with
  | nil => intro i st st'; rfl
  | cons term rest ih =>
    intro i st st'
    cases hr : resp i with
    | err code msg reason =>
      by_cases hq : reason = some "quotaExceeded"
      · simp [processTermsDebug, hr, hq]
      · simp only [processTermsDebug, hr, if_neg hq]
        exact ih _ _ _
    | ok items =>
      cases items with
      | nil =>
        simp only [processTermsDebug, hr]
        exact ih _ _ _
      | cons item tl =>
        simp only [processTermsDebug, hr]
        exact congrArg _ (ih _ _ _)
    | exn msg =>
      simp only [processTermsDebug, hr]
      exact ih _ _ _

/-- Characterization of the `k`-th enriched skill's videos: they are a
function of that skill's own terms and its own search oracle only. -/
theorem enrichSkillsDebug_videos_get (resps : Nat → Nat → SearchOutcome) :
    ∀ (skills : List Skill) (j0 : Nat) (st : SearchStats) (k : Nat),
    ((enrichSkillsDebug resps skills j0 st).1.map EnrichedSkill.videos).get? k =
      (skills.get? k).map
        (fun sk => (processTermsDebug (resps (j0 + k)) sk.searchTerms 0 SearchStats.init).1) := by
  intro skills
  induction skills with
  | nil => intro j0 st k; simp [enrichSkillsDebug]
  | cons sk rest ih =>
    intro j0 st k
    cases k with
    | zero =>
      have h0 : ((enrichSkillsDebug resps (sk :: rest) j0 st).1.map
          EnrichedSkill.videos).get? 0 =
          some ((processTermsDebug (resps j0) sk.searchTerms 0 st).1) := rfl
      rw [h0]
      simpa using congrArg some
        (processTermsDebug_fst_indep (resps j0) sk.searchTerms 0 st SearchStats.init)
    | succ k =>
      simp only [enrichSkillsDebug, List.map_cons, List.get?_cons_succ]
      rw [ih (j0 + 1) _ k]
      have : j0 + 1 + k = j0 + (k + 1) := by omega
      rw [this]

/-- The term loop preserves the counter identity
`totalSearches = successfulSearches + failedSearches`. -/
theorem processTermsDebug_balance (resp : Nat → SearchOutcome) :
    ∀ (terms : List String) (i : Nat) (st : SearchStats),
    st.totalSearches = st.successfulSearches + st.failedSearches →
    (processTermsDebug resp terms i st).2.totalSearches =
      (processTermsDebug resp terms i st).2.successfulSearches +
        (processTermsDebug resp terms i st).2.failedSearches := by
  intro terms
  induction terms with
  | nil => intro i st h; simpa [processTermsDebug] using h
  | cons term rest ih =>
    intro i st h
    cases hr : resp i with
    | err code msg reason =>
      by_cases hq : reason = some "quotaExceeded"
      · simp [processTermsDebug, hr, hq]
        omega
      · simp only [processTermsDebug, hr, if_neg hq]
        exact ih _ _ (by simp; omega)
    | ok items =>
      cases items with
      | nil =>
        simp only [processTermsDebug, hr]
        exact ih _ _ (by simp; omega)
      | cons item tl =>
        simp only [processTermsDebug, hr]
        exact ih _ _ (by simp; omega)
    | exn msg =>
      simp only [processTermsDebug, hr]
      exact ih _ _ (by simp; omega)

/-- The skill loop preserves the counter identity. -/
theorem enrichSkillsDebug_balance (resps : Nat → Nat → SearchOutcome) :
    ∀ (skills : List Skill) (j0 : Nat) (st : SearchStats),
    st.totalSearches = st.successfulSearches + st.failedSearches →
    (enrichSkillsDebug resps skills j0 st).2.totalSearches =
      (enrichSkillsDebug resps skills j0 st).2.successfulSearches +
        (enrichSkillsDebug resps skills j0 st).2.failedSearches := by
  intro skills
  induction skills with
  | nil => intro j0 st h; simpa [enrichSkillsDebug] using h
  | cons sk rest ih =>
    intro j0 st h
    simp only [enrichSkillsDebug]
    exact ih _ _ (processTermsDebug_balance _ _ _ _ h)

/-- Without a quota-exhaustion outcome, the term loop attempts every term,
incrementing `totalSearches` exactly once per term. -/
theorem processTermsDebug_total_noquota (resp : Nat → SearchOutcome)
    (h : ∀ n, (resp n).isQuota = false) :
    ∀ (terms : List String) (i : Nat) (st : SearchStats),
    (processTermsDebug resp terms i st).2.totalSearches =
      st.totalSearches + terms.length := by
  intro terms
  induction terms with
  | nil => intro i st; simp [processTermsDebug]
  | cons term rest ih =>
    intro i st
    have hnq : ∀ code msg reason, resp i = .err code msg reason →
        ¬ reason = some "quotaExceeded" := by
      intro code msg reason hr hq
      have := h i
      rw [hr] at this
      simp [SearchOutcome.isQuota, hq] at this
    cases hr : resp i with
    | err code msg reason =>
      simp only [processTermsDebug, hr, if_neg (hnq _ _ _ hr)]
      rw [ih]
      simp
      omega
    | ok items =>
      cases items with
      | nil =>
        simp only [processTermsDebug, hr]
        rw [ih]
        simp
        omega
      | cons item tl =>
        simp only [processTermsDebug, hr]
        rw [ih]
        simp
        omega
    | exn msg =>
      simp only [processTermsDebug, hr]
      rw [ih]
      simp
      omega

/-- Without quota-exhaustion outcomes, the skill loop attempts every term of
every skill. -/
theorem enrichSkillsDebug_total_noquota (resps : Nat → Nat → SearchOutcome)
    (h : ∀ j i, (resps j i).isQuota = false) :
    ∀ (skills : List Skill) (j0 : Nat) (st : SearchStats),
    (enrichSkillsDebug resps skills j0 st).2.totalSearches =
      st.totalSearches + (skills.map (fun sk => sk.searchTerms.length)).sum := by
  intro skills
  induction skills with
  | nil => intro j0 st; simp [enrichSkillsDebug]
  | cons sk rest ih =>
    intro j0 st
    simp only [enrichSkillsDebug, List.map_cons, List.sum_cons]
    rw [ih]
    rw [processTermsDebug_total_noquota (resps j0) (h j0)]
    omega

/-- Without a quota-exhaustion outcome, the diagnostics variant's term loop
yields the same videos as the plain variant's. -/
theorem processTerms_debug_eq_simple (resp : Nat → SearchOutcome)
    (h : ∀ n, (resp n).isQuota = false) :
    ∀ (terms : List String) (i : Nat) (st : SearchStats),
    (processTermsDebug resp terms i st).1 = processTermsSimple resp terms i := by
  intro terms
  induction terms with
  | nil => intro i st; rfl
  | cons term rest ih =>
    intro i st
    cases hr : resp i with
    | err code msg reason =>
      have hq : ¬ reason = some "quotaExceeded" := by
        intro hq
        have := h i
        rw [hr] at this
        simp [SearchOutcome.isQuota, hq] at this
      simp only [processTermsDebug, processTermsSimple, hr, if_neg hq]
      exact ih _ _
    | ok items =>
      cases items with
      | nil =>
        simp only [processTermsDebug, processTermsSimple, hr]
        exact ih _ _
      | cons item tl =>
        simp only [processTermsDebug, processTermsSimple, hr]
        exact congrArg _ (ih _ _)
    | exn msg =>
      simp only [processTermsDebug, processTermsSimple, hr]
      exact ih _ _

/-- Without quota-exhaustion outcomes, the two enrichment variants produce
the same enriched skills. -/
theorem enrich_debug_eq_simple (resps : Nat → Nat → SearchOutcome)
    (h : ∀ j i, (resps j i).isQuota = false) :
    ∀ (skills : List Skill) (j0 : Nat) (st : SearchStats),
    (enrichSkillsDebug resps skills j0 st).1 = enrichSkillsSimple resps skills j0 := by
  intro skills
  induction skills with
  | nil => intro j0 st; rfl
  | cons sk rest ih =>
    intro j0 st
    simp only [enrichSkillsDebug, enrichSkillsSimple]
    rw [processTerms_debug_eq_simple (resps j0) (h j0)]
    rw [ih]

/-- Claim C2: when the search collaborator returns a quota-exhaustion error
on the second of three terms (the first term's outcome not itself being a
quota error), the skill's loop attempts exactly two terms
(`totalSearches` grows by 2), never consults the third term's outcome (the
result is unchanged under any oracle agreeing on the first two terms), and
the skill's video list holds at most a result for the first term; moreover
no skill's enrichment is cross-cancelled by another skill's outcomes: the
`j`-th enriched skill's videos depend only on the `j`-th skill's own
oracle. -/
theorem c2_quota_aborts_skill (resp : Nat → SearchOutcome) (t1 t2 t3 : String)
    (code : Int) (msg : String) (st : SearchStats)
    (h0 : (resp 0).isQuota = false)
    (hq : resp 1 = .err code msg (some "quotaExceeded")) :
    (processTermsDebug resp [t1, t2, t3] 0 st).2.totalSearches =
      st.totalSearches + 2
    ∧ (∀ resp' : Nat → SearchOutcome, resp' 0 = resp 0 → resp' 1 = resp 1 →
        processTermsDebug resp' [t1, t2, t3] 0 st =
          processTermsDebug resp [t1, t2, t3] 0 st)
    ∧ ((processTermsDebug resp [t1, t2, t3] 0 st).1 = []
        ∨ ∃ v : Video, (processTermsDebug resp [t1, t2, t3] 0 st).1 = [v]
            ∧ v.searchTerm = t1)
    ∧ (∀ (resps resps' : Nat → Nat → SearchOutcome) (skills : List Skill)
        (stA stB : SearchStats) (j : Nat), resps j = resps' j →
        ((enrichSkillsDebug resps skills 0 stA).1.map EnrichedSkill.videos).get? j =
          ((enrichSkillsDebug resps' skills 0 stB).1.map EnrichedSkill.videos).get? j) := by
  refine ⟨?_, ?_, ?_, ?_⟩
  · cases hr0 : resp 0 with
    | err code0 msg0 reason0 =>
      have hq0 : ¬ reason0 = some "quotaExceeded" := by
        intro hqq
        rw [hr0] at h0
        simp [SearchOutcome.isQuota, hqq] at h0
      simp [processTermsDebug, hr0, if_neg hq0, hq]
    | ok items =>
      cases items with
      | nil => simp [processTermsDebug, hr0, hq]
      | cons item tl => simp [processTermsDebug, hr0, hq]
    | exn msg0 => simp [processTermsDebug, hr0, hq]
  · intro resp' e0 e1
    cases hr0 : resp 0 with
    | err code0 msg0 reason0 =>
      have hq0 : ¬ reason0 = some "quotaExceeded" := by
        intro hqq
        rw [hr0] at h0
        simp [SearchOutcome.isQuota, hqq] at h0
      simp [processTermsDebug, e0, e1, hr0, if_neg hq0, hq]
    | ok items =>
      cases items with
      | nil => simp [processTermsDebug, e0, e1, hr0, hq]
      | cons item tl => simp [processTermsDebug, e0, e1, hr0, hq]
    | exn msg0 => simp [processTermsDebug, e0, e1, hr0, hq]
  · cases hr0 : resp 0 with
    | err code0 msg0 reason0 =>
      have hq0 : ¬ reason0 = some "quotaExceeded" := by
        intro hqq
        rw [hr0] at h0
        simp [SearchOutcome.isQuota, hqq] at h0
      left
      simp [processTermsDebug, hr0, if_neg hq0, hq]
    | ok items =>
      cases items with
      | nil =>
        left
        simp [processTermsDebug, hr0, hq]
      | cons item tl =>
        right
        exact ⟨⟨item.videoId, item.title, item.thumbnail, item.channelTitle, t1⟩,
          by simp [processTermsDebug, hr0, hq], rfl⟩
    | exn msg0 =>
      left
      simp [processTermsDebug, hr0, hq]
  · intro resps resps' skills stA stB j hjj
    rw [enrichSkillsDebug_videos_get, enrichSkillsDebug_videos_get]
    simp only [Nat.zero_add, hjj]

/-- Witness for C2 at a concrete oracle (first term succeeds, second hits
the quota error): exactly two searches are attempted and the video list is
the single result for the first term. -/
theorem c2_quota_aborts_skill_witness :
    (processTermsDebug c2resp ["t1", "t2", "t3"] 0 SearchStats.init).2.totalSearches =
      SearchStats.init.totalSearches + 2
    ∧ ((processTermsDebug c2resp ["t1", "t2", "t3"] 0 SearchStats.init).1 = []
        ∨ ∃ v : Video,
            (processTermsDebug c2resp ["t1", "t2", "t3"] 0 SearchStats.init).1 = [v]
            ∧ v.searchTerm = "t1") :=
  ⟨(c2_quota_aborts_skill c2resp "t1" "t2" "t3" 403 "quota" SearchStats.init rfl rfl).1,
   (c2_quota_aborts_skill c2resp "t1" "t2" "t3" 403 "quota" SearchStats.init rfl rfl).2.2.1⟩

/-- Claim C8: in the diagnostics variant, the final counters satisfy
`totalSearches = successfulSearches + failedSearches`; the `errors` list
attached to the `_debug` response never exceeds 5 entries; and (when no
quota abort truncates a skill) every term of every skill increments
`totalSearches` exactly once. -/
theorem c8_counters_and_error_cap (resps : Nat → Nat → SearchOutcome)
    (skills : List Skill) :
    (enrichSkillsDebug resps skills 0 SearchStats.init).2.totalSearches =
      (enrichSkillsDebug resps skills 0 SearchStats.init).2.successfulSearches +
        (enrichSkillsDebug resps skills 0 SearchStats.init).2.failedSearches
    ∧ (∀ es, (mkDebugInfo (enrichSkillsDebug resps skills 0 SearchStats.init).2).errors =
        some es → es.length ≤ 5)
    ∧ ((∀ j i, (resps j i).isQuota = false) →
        (enrichSkillsDebug resps skills 0 SearchStats.init).2.totalSearches =
          (skills.map (fun sk => sk.searchTerms.length)).sum) := by
  refine ⟨enrichSkillsDebug_balance resps skills 0 SearchStats.init rfl, ?_, ?_⟩
  · intro es h
    unfold mkDebugInfo at h
    by_cases he : (enrichSkillsDebug resps skills 0 SearchStats.init).2.youtubeErrors.isEmpty
    · simp [he] at h
    · simp only [he, Bool.false_eq_true, if_false, Option.some_inj] at h
      subst h
      rw [List.length_take]
      exact min_le_left _ _
  · intro h
    simpa [SearchStats.init] using
      enrichSkillsDebug_total_noquota resps h skills 0 SearchStats.init

/-- Witness for C8 at a concrete run with seven failing searches: the
counters balance and the attached error list is capped at five entries. -/
theorem c8_counters_and_error_cap_witness :
    (enrichSkillsDebug allErrResps sevenTermSkills 0 SearchStats.init).2.totalSearches =
      (enrichSkillsDebug allErrResps sevenTermSkills 0 SearchStats.init).2.successfulSearches +
        (enrichSkillsDebug allErrResps sevenTermSkills 0 SearchStats.init).2.failedSearches
    ∧ fiveErrList.length ≤ 5 :=
  ⟨(c8_counters_and_error_cap allErrResps sevenTermSkills).1,
   (c8_counters_and_error_cap allErrResps sevenTermSkills).2.1 fiveErrList rfl⟩

/-- Claim C10 (counterexample to the claim as stated): with an identical
sequence of collaborator responses — quota-exhaustion error on the first
term, a successful result on the second — the plain `server.js` variant
keeps the second term's video while the diagnostics variant aborts the
skill, so the two variants' skills-with-videos differ. -/
theorem c10_counterexample :
    (enrichSkillsDebug quotaThenSuccess [twoTermSkill] 0 SearchStats.init).1 ≠
      enrichSkillsSimple quotaThenSuccess [twoTermSkill] 0 := by
  decide

/-- Claim C10 as amended: the two server variants' enrichment loops are
observationally equivalent — same ordered skills-with-videos for identical
response sequences — exactly on runs in which no response is a
quota-exhaustion service error; when a quota error occurs, the diagnostics
variant aborts the remaining terms of that skill while the plain variant
continues. -/
theorem c10_variants_agree_without_quota (resps : Nat → Nat → SearchOutcome)
    (skills : List Skill) (h : ∀ j i, (resps j i).isQuota = false) :
    (enrichSkillsDebug resps skills 0 SearchStats.init).1 =
      enrichSkillsSimple resps skills 0 :=
  enrich_debug_eq_simple resps h skills 0 SearchStats.init

/-- Witness for C10 at a concrete quota-free run. -/
theorem c10_variants_agree_without_quota_witness :
    (enrichSkillsDebug allOkResps [twoTermSkill] 0 SearchStats.init).1 =
      enrichSkillsSimple allOkResps [twoTermSkill] 0 :=
  c10_variants_agree_without_quota allOkResps [twoTermSkill] (fun _ _ => rfl)

/-- A value reached through a property lives in an object, which is truthy. -/
theorem Json.truthy_of_getProp (j : Json) (k : String) (v : Json)
    (h : j.getProp k = some v) : j.truthy = true := by
  cases j <;> simp [Json.getProp, Json.truthy] at h ⊢

/-- The UPDATE statement rewrites only `data`/`updated_at`: per-topic row
counts are unchanged. -/
theorem filter_length_update (key : String) (c : Json) (clock : Nat) :
    ∀ (rows : List StoredRow) (t : String),
    ((rows.map (fun r => if r.topic == key then
        { r with data := c, updatedAt := clock } else r)).filter
      (fun r => r.topic == t)).length =
      (rows.filter (fun r => r.topic == t)).length := by
  intro rows t
  have htop : ∀ x : StoredRow,
      ((if x.topic == key then { x with data := c, updatedAt := clock }
        else x) : StoredRow).topic = x.topic := by
    intro x
    by_cases hx : x.topic = key <;> simp [hx]
  induction rows with
  | nil => rfl
  | cons r rest ih =>
    rw [List.map_cons, List.filter_cons, List.filter_cons, htop]
    by_cases ht : (r.topic == t) = true
    · rw [if_pos ht, if_pos ht, List.length_cons, List.length_cons, ih]
    · rw [if_neg ht, if_neg ht]
      exact ih

/-- The upsert keeps the at-most-one-row-per-topic invariant. -/
theorem upsertByTopic_atMostOne (store : CourseStore) (key : String) (c : Json)
    (h : AtMostOnePerTopic store) :
    AtMostOnePerTopic (upsertByTopic store key c).1 := by
  unfold AtMostOnePerTopic topicRows at h ⊢
  intro t
  unfold upsertByTopic
  by_cases hex : store.rows.any (fun r => r.topic == key) = true
  · rw [if_pos hex]
    show ((store.rows.map fun r => if r.topic == key then
      { r with data := c, updatedAt := store.clock } else r).filter
        (fun r => r.topic == t)).length ≤ 1
    rw [filter_length_update]
    exact h t
  · rw [if_neg hex]
    show ((store.rows ++ [StoredRow.mk store.nextId key c store.clock]).filter
      (fun r => r.topic == t)).length ≤ 1
    rw [List.filter_append, List.length_append]
    by_cases ht : (key == t) = true
    · have hkt : key = t := by simpa using ht
      have hnone : (store.rows.filter (fun r => r.topic == t)).length = 0 := by
        subst hkt
        rw [List.length_eq_zero, List.filter_eq_nil_iff]
        intro r hrmem habs
        exact hex (List.any_eq_true.mpr ⟨r, hrmem, habs⟩)
      rw [hnone]
      simp [List.filter_cons, ht]
    · simp only [List.filter_cons, ht, Bool.false_eq_true, if_false,
        List.filter_nil, List.length_nil, Nat.add_zero]
      exact h t

theorem upsertByTopic_clockAhead (store : CourseStore) (key : String) (c : Json)
    (h : ClockAhead store) :
    ClockAhead (upsertByTopic store key c).1 := by
  intro r' hr'
  unfold upsertByTopic at hr' ⊢
  by_cases hex : store.rows.any (fun r => r.topic == key) = true
  · rw [if_pos hex] at hr' ⊢
    show r'.updatedAt < store.clock + 1
    obtain ⟨r0, hr0, hfr⟩ := List.mem_map.mp hr'
    rw [← hfr]
    by_cases h0 : (r0.topic == key) = true
    · rw [if_pos h0]
      exact Nat.lt_succ_self _
    · rw [if_neg h0]
      exact lt_trans (h r0 hr0) (Nat.lt_succ_self _)
  · rw [if_neg hex] at hr' ⊢
    show r'.updatedAt < store.clock + 1
    rcases List.mem_append.mp hr' with hold | hnew
    · exact lt_trans (h r' hold) (Nat.lt_succ_self _)
    · rw [List.mem_singleton.mp hnew]
      exact Nat.lt_succ_self _

/-- `POST /api/courses` keeps the at-most-one-row-per-topic invariant for
every request body. -/
theorem postCourse_atMostOne (store : CourseStore) (course? : Option Json)
    (h : AtMostOnePerTopic store) :
    AtMostOnePerTopic (postCourse store course?).1 := by
  cases course? with
  | none => exact h
  | some c =>
    show AtMostOnePerTopic (if (!c.truthy) = true then (store, SaveOutcome.badRequest)
      else if (!c.truthyProp "topic") = true then (store, SaveOutcome.badRequest)
      else upsertByTopic store (jsParamText ((c.getProp "topic").getD .null)) c).1
    by_cases h1 : c.truthy = true
    · by_cases h2 : c.truthyProp "topic" = true
      · rw [if_neg (by simp [h1]), if_neg (by simp [h2])]
        exact upsertByTopic_atMostOne _ _ _ h
      · have h2f : c.truthyProp "topic" = false := Bool.eq_false_iff.mpr h2
        rw [if_neg (by simp [h1]), if_pos (by simp [h2f])]
        exact h
    · have h1f : c.truthy = false := Bool.eq_false_iff.mpr h1
      rw [if_pos (by simp [h1f])]
      exact h

/-- Claim C5: the save endpoint upserts by topic.  For a course whose topic
is the non-empty string `t`: when a row with topic `t` exists, the save
replaces that row's payload and bumps its updated timestamp without changing
the number of rows; when no such row exists, it appends exactly one new row
holding the course; the at-most-one-row-per-topic invariant and the
clock-ahead invariant are preserved; and after any sequence of saves
starting from the empty store, the store holds at most one course per
topic. -/
theorem c5_upsert_by_topic :
    (∀ (store : CourseStore) (course : Json) (t : String),
      AtMostOnePerTopic store → ClockAhead store →
      course.getProp "topic" = some (.str t) → t ≠ "" →
      ((∃ r ∈ store.rows, r.topic = t) →
        ((postCourse store (some course)).1.rows.length = store.rows.length
         ∧ ∀ r' ∈ (postCourse store (some course)).1.rows, r'.topic = t →
             r'.data = course
             ∧ ∀ r ∈ store.rows, r.topic = t → r.updatedAt < r'.updatedAt))
      ∧ ((∀ r ∈ store.rows, r.topic ≠ t) →
        ((postCourse store (some course)).1.rows.length = store.rows.length + 1
         ∧ ∃ r' ∈ (postCourse store (some course)).1.rows,
             r'.topic = t ∧ r'.data = course))
      ∧ AtMostOnePerTopic (postCourse store (some course)).1
      ∧ ClockAhead (postCourse store (some course)).1)
    ∧ (∀ saves : List (Option Json),
        AtMostOnePerTopic
          (saves.foldl (fun st c => (postCourse st c).1) CourseStore.empty)) := by
  constructor
  · intro store course t hA hC hprop hne
    have hobj : course.truthy = true := Json.truthy_of_getProp _ _ _ hprop
    have htp : course.truthyProp "topic" = true := by
      simp [Json.truthyProp, hprop, Json.truthy, hne]
    have hred : postCourse store (some course) = upsertByTopic store t course := by
      show (if (!course.truthy) = true then (store, SaveOutcome.badRequest)
        else if (!course.truthyProp "topic") = true then (store, SaveOutcome.badRequest)
        else upsertByTopic store
          (jsParamText ((course.getProp "topic").getD .null)) course) =
        upsertByTopic store t course
      rw [if_neg (by simp [hobj]), if_neg (by simp [htp]), hprop]
      rfl
    refine ⟨?_, ?_, ?_, ?_⟩
    · intro ⟨r, hrmem, hrt⟩
      have hex : store.rows.any (fun r => r.topic == t) = true :=
        List.any_eq_true.mpr ⟨r, hrmem, by simp [hrt]⟩
      rw [hred]
      unfold upsertByTopic
      rw [if_pos hex]
      refine ⟨by simp, ?_⟩
      intro r' hr' hr't
      obtain ⟨r0, hr0, hfr⟩ := List.mem_map.mp hr'
      by_cases h0 : (r0.topic == t) = true
      · rw [← hfr, if_pos h0]
        exact ⟨rfl, fun rr hrr _ => hC rr hrr⟩
      · exfalso
        rw [← hfr, if_neg h0] at hr't
        exact h0 (by simp [hr't])
    · intro hfresh
      have hex : ¬ store.rows.any (fun r => r.topic == t) = true := by
        intro habs
        obtain ⟨r, hrmem, hrt⟩ := List.any_eq_true.mp habs
        exact hfresh r hrmem (by simpa using hrt)
      rw [hred]
      unfold upsertByTopic
      rw [if_neg hex]
      exact ⟨by simp, ⟨⟨store.nextId, t, course, store.clock⟩,
        List.mem_append.mpr (Or.inr (List.mem_singleton.mpr rfl)), rfl, rfl⟩⟩
    · exact postCourse_atMostOne _ _ hA
    · rw [hred]
      exact upsertByTopic_clockAhead _ _ _ hC
  · intro saves
    have hstep : ∀ (l : List (Option Json)) (st : CourseStore),
        AtMostOnePerTopic st →
        AtMostOnePerTopic (l.foldl (fun st c => (postCourse st c).1) st) := by
      intro l
      induction l with
      | nil => intro st h; exact h
      | cons c rest ih =>
        intro st h
        exact ih _ (postCourse_atMostOne st c h)
    refine hstep saves CourseStore.empty ?_
    intro t
    simp [topicRows, CourseStore.empty]

/-- Witness for C5: saving a course with topic `"X"` into a store already
holding a course with topic `"X"` leaves the row count unchanged. -/
theorem c5_upsert_by_topic_witness :
    (postCourse c5storeEx (some c5courseEx)).1.rows.length = c5storeEx.rows.length := by
  have hA : AtMostOnePerTopic c5storeEx := by
    intro t
    unfold topicRows
    simpa [c5storeEx] using
      List.length_filter_le (fun r => r.topic == t) c5storeEx.rows
  have hC : ClockAhead c5storeEx := by
    intro r hr
    have hreq : r = StoredRow.mk 1 "X" .null 1 := by
      simpa [c5storeEx] using hr
    rw [hreq]
    show (1 : ℕ) < c5storeEx.clock
    norm_num [c5storeEx]
  exact ((c5_upsert_by_topic.1 c5storeEx c5courseEx "X" hA hC rfl (by decide)).1
    ⟨StoredRow.mk 1 "X" .null 1, by simp [c5storeEx], rfl⟩).1

/-- Claim C6 (counterexample to the claim as stated): the server-side save
endpoint accepts a course that has a topic but no skills sequence at all —
the claimed "accepted only if it has a skills sequence" does not hold at the
server acceptance point, which validates only the topic. -/
theorem c6_counterexample :
    serverSaveAccepts (some (Json.obj [("topic", Json.str "X")])) = true
    ∧ (Json.obj [("topic", Json.str "X")]).getProp "skills" = none :=
  ⟨rfl, rfl⟩

/-- Claim C6 as amended: client-side import of an object with a string
topic `t` and a `skills` property `v` is accepted iff `t` is non-empty and
`v` is an array; server-side save validates only the topic (a course with a
non-empty string topic is accepted even without any skills property); the
concrete examples `{topic:"", skills:[]}` and `{skills:[]}` are rejected at
both acceptance points and `{topic:"X", skills:[...]}` is accepted at
both. -/
theorem c6_import_validation :
    (∀ (t : String) (v : Json),
      handleImportAccepts (.obj [("topic", .str t), ("skills", v)]) = true ↔
        (t ≠ "" ∧ v.isArray = true))
    ∧ (∀ t : String,
        serverSaveAccepts (some (.obj [("topic", .str t)])) = true ↔ t ≠ "")
    ∧ handleImportAccepts (.obj [("topic", .str ""), ("skills", .arr [])]) = false
    ∧ handleImportAccepts (.obj [("skills", .arr [])]) = false
    ∧ handleImportAccepts (.obj [("topic", .str "X"), ("skills", .arr [.null])]) = true
    ∧ serverSaveAccepts (some (.obj [("topic", .str ""), ("skills", .arr [])])) = false
    ∧ serverSaveAccepts (some (.obj [("skills", .arr [])])) = false
    ∧ serverSaveAccepts (some (.obj [("topic", .str "X"), ("skills", .arr [.null])])) = true := by
  refine ⟨?_, ?_, rfl, rfl, rfl, rfl, rfl, rfl⟩
  · intro t v
    have hred : handleImportAccepts (.obj [("topic", .str t), ("skills", v)]) =
        (((t != "") && v.truthy) && v.isArray) := rfl
    rw [hred]
    cases v <;> simp [Json.truthy, Json.isArray]
  · intro t
    have hred : serverSaveAccepts (some (.obj [("topic", .str t)])) =
        (true && (t != "")) := rfl
    rw [hred]
    simp

/-- Witness for C6 at concrete inputs: a well-formed import is accepted. -/
theorem c6_import_validation_witness :
    handleImportAccepts (.obj [("topic", .str "X"), ("skills", .arr [.null])]) = true :=
  (c6_import_validation.1 "X" (.arr [.null])).mpr ⟨by decide, rfl⟩

/-- A hex digit produced from a value below 16 is a lowercase hex digit. -/
theorem hexChar_isHex (m : Nat) (h : m < 16) : isHexDigitChar (hexChar m) = true := by
  interval_cases m <;> decide

/-- `hexChar` is injective below 16. -/
theorem hexChar_injOn (m n : Nat) (hm : m < 16) (hn : n < 16)
    (h : hexChar m = hexChar n) : m = n := by
  have key : ∀ a b : Fin 16, hexChar a = hexChar b → a = b := by decide
  exact Fin.mk.injEq m hm n hn ▸ congrArg Fin.val (key ⟨m, hm⟩ ⟨n, hn⟩ h)

/-- Claim C9 (counterexample to the claim as stated): under the
constant-zero outcome of the random source — a possible outcome of
`Math.random()` — the two identifiers generated in one export call
coincide, so identifiers are not pairwise distinct for every outcome. -/
theorem c9_counterexample :
    ¬ ((exportToTrainstation zeroDraw oneSkillNoVideos).entities.map
      Entity.id).Nodup := by
  decide

/-- Claim C9 as amended: every identifier generated during an export is a
36-character hyphenated string in 8-4-4-4-12 format — hyphens exactly at
positions 8, 13, 18, 23, the fixed version nibble `'4'` at position 14, and
lowercase hexadecimal digits everywhere else — and each call consumes 31
random draws; two generated identifiers are distinct whenever their first
random draws differ modulo 16, but pairwise distinctness does not hold for
every outcome of the random source. -/
theorem c9_uuid_shape (draw : Nat → Nat) (k : Nat) :
    ((generateUUID draw k).1).length = 36
    ∧ (∀ i, i ∈ ([8, 13, 18, 23] : List Nat) →
        ((generateUUID draw k).1).get? i = some '-')
    ∧ ((generateUUID draw k).1).get? 14 = some '4'
    ∧ (∀ i, i < 36 → i ∉ ([8, 13, 18, 23] : List Nat) →
        ∃ c, ((generateUUID draw k).1).get? i = some c ∧ isHexDigitChar c = true)
    ∧ (generateUUID draw k).2 = k + 31
    ∧ (∀ a b : Nat, draw a % 16 ≠ draw b % 16 →
        (generateUUID draw a).1 ≠ (generateUUID draw b).1) := by
  refine ⟨rfl, ?_, rfl, ?_, rfl, ?_⟩
  · intro i hi
    fin_cases hi <;> rfl
  · intro i h1 h2
    interval_cases i <;>
      first
        | exact absurd (by decide) h2
        | exact ⟨_, rfl, by decide⟩
        | exact ⟨_, rfl, hexChar_isHex _ (by omega)⟩
  · intro a b hne heq
    have h0 : ((generateUUID draw a).1).get? 0 = ((generateUUID draw b).1).get? 0 := by
      rw [heq]
    have ha : ((generateUUID draw a).1).get? 0 = some (hexChar (draw a % 16)) := rfl
    have hb : ((generateUUID draw b).1).get? 0 = some (hexChar (draw b % 16)) := rfl
    rw [ha, hb] at h0
    exact hne (hexChar_injOn _ _ (Nat.mod_lt _ (by norm_num))
      (Nat.mod_lt _ (by norm_num)) (Option.some_inj.mp h0))

/-- Witness for C9: with the identity random stream, the first export-call
identifier is 36 characters long and differs from the next one (their first
draws 0 and 31 differ mod 16). -/
theorem c9_uuid_shape_witness :
    ((generateUUID (fun n => n) 0).1).length = 36
    ∧ (generateUUID (fun n => n) 0).1 ≠ (generateUUID (fun n => n) 31).1 :=
  ⟨(c9_uuid_shape (fun n => n) 0).1,
   (c9_uuid_shape (fun n => n) 0).2.2.2.2.2 0 31 (by decide)⟩

/-- The video-id list of one skill's export equals the ids of its video
entities, in order. -/
theorem exportVideos_ids (draw : Nat → Nat) (topic sn sd : String) (total : Nat) :
    ∀ (vids : List Video) (idx k : Nat),
    (exportVideos draw topic sn sd total vids idx k).2.1 =
      (exportVideos draw topic sn sd total vids idx k).1.map Entity.id := by
  intro vids
  induction vids with
  | nil => intro idx k; rfl
  | cons v rest ih =>
    intro idx k
    simp only [exportVideos, List.map_cons]
    rw [← ih]

/-- One skill's export produces one video entity per video. -/
theorem exportVideos_length (draw : Nat → Nat) (topic sn sd : String) (total : Nat) :
    ∀ (vids : List Video) (idx k : Nat),
    (exportVideos draw topic sn sd total vids idx k).1.length = vids.length := by
  intro vids
  induction vids with
  | nil => intro idx k; rfl
  | cons v rest ih =>
    intro idx k
    simp only [exportVideos, List.length_cons, ih]

/-- Every exported video entity has kind `"video"` and no children. -/
theorem exportVideos_children (draw : Nat → Nat) (topic sn sd : String) (total : Nat) :
    ∀ (vids : List Video) (idx k : Nat),
    ∀ e ∈ (exportVideos draw topic sn sd total vids idx k).1,
      e.children = [] ∧ e.kind = "video" := by
  intro vids
  induction vids with
  | nil => intro idx k e he; cases he
  | cons v rest ih =>
    intro idx k e he
    rcases List.mem_cons.mp he with heq | hrest
    · rw [heq]
      exact ⟨rfl, rfl⟩
    · exact ih _ _ e hrest

/-- The skill loop produces one entity per video plus one per skill. -/
theorem exportSkills_length (draw : Nat → Nat) (topic : String) :
    ∀ (skills : List EnrichedSkill) (k : Nat),
    (exportSkills draw topic skills k).1.length =
      ((skills.map (fun sk => sk.videos.length)).sum + skills.length) := by
  intro skills
  induction skills with
  | nil => intro k; rfl
  | cons sk rest ih =>
    intro k
    simp only [exportSkills, List.length_append, List.length_cons, ih,
      exportVideos_length, List.map_cons, List.sum_cons]
    omega

/-- The skill loop produces one section id per skill. -/
theorem exportSkills_sids_length (draw : Nat → Nat) (topic : String) :
    ∀ (skills : List EnrichedSkill) (k : Nat),
    (exportSkills draw topic skills k).2.1.length = skills.length := by
  intro skills
  induction skills with
  | nil => intro k; rfl
  | cons sk rest ih =>
    intro k
    simp only [exportSkills, List.length_cons, ih]

/-- Every section id names an entity among the skill loop's entities. -/
theorem exportSkills_sids_exist (draw : Nat → Nat) (topic : String) :
    ∀ (skills : List EnrichedSkill) (k : Nat),
    ∀ c ∈ (exportSkills draw topic skills k).2.1,
      ∃ e ∈ (exportSkills draw topic skills k).1, e.id = c := by
  intro skills
  induction skills with
  | nil => intro k c hc; cases hc
  | cons sk rest ih =>
    intro k c hc
    rcases List.mem_cons.mp hc with heq | hrest
    · refine ⟨_, List.mem_append.mpr (Or.inr (List.mem_cons_self _ _)), heq.symm⟩
    · obtain ⟨e, he, hid⟩ := ih _ c hrest
      exact ⟨e, List.mem_append.mpr (Or.inr (List.mem_cons_of_mem _ he)), hid⟩

/-- Every child id referenced inside the skill loop's entities names an
entity of the skill loop. -/
theorem exportSkills_no_orphans (draw : Nat → Nat) (topic : String) :
    ∀ (skills : List EnrichedSkill) (k : Nat),
    ∀ e ∈ (exportSkills draw topic skills k).1,
    ∀ c ∈ e.children,
      ∃ e2 ∈ (exportSkills draw topic skills k).1, e2.id = c := by
  intro skills
  induction skills with
  | nil => intro k e he; cases he
  | cons sk rest ih =>
    intro k e he c hc
    rcases List.mem_append.mp he with hvid | hsec
    · exfalso
      have := (exportVideos_children draw topic sk.name sk.description
        sk.videos.length sk.videos 0 _ e hvid).1
      rw [this] at hc
      cases hc
    · rcases List.mem_cons.mp hsec with heq | hrest
      · rw [heq] at hc
        have hch : c ∈ (exportVideos draw topic sk.name sk.description
            sk.videos.length sk.videos 0 (generateUUID draw k).2).1.map Entity.id := by
          rw [← exportVideos_ids]
          exact hc
        obtain ⟨ev, hev, hevid⟩ := List.mem_map.mp hch
        exact ⟨ev, List.mem_append.mpr (Or.inl hev), hevid⟩
      · obtain ⟨e2, he2, hid⟩ := ih _ e hrest c hc
        exact ⟨e2, List.mem_append.mpr (Or.inr (List.mem_cons_of_mem _ he2)), hid⟩

/-- Positional characterization: the `i`-th section id names a section
entity of the skill loop, which has no children when the `i`-th skill has no
videos. -/
theorem exportSkills_section_at (draw : Nat → Nat) (topic : String) :
    ∀ (skills : List EnrichedSkill) (k : Nat) (i : Nat) (h : i < skills.length),
    ∃ e ∈ (exportSkills draw topic skills k).1,
      (exportSkills draw topic skills k).2.1.get? i = some e.id
      ∧ e.kind = "section"
      ∧ ((skills.get ⟨i, h⟩).videos = [] → e.children = []) := by
  intro skills
  induction skills with
  | nil => intro k i h; cases h
  | cons sk rest ih =>
    intro k i h
    cases i with
    | zero =>
      refine ⟨_, List.mem_append.mpr (Or.inr (List.mem_cons_self _ _)), rfl, rfl, ?_⟩
      intro hv
      have hv' : sk.videos = [] := hv
      show (exportVideos draw topic sk.name sk.description sk.videos.length
        sk.videos 0 (generateUUID draw k).2).2.1 = []
      rw [hv']
      rfl
    | succ i =>
      obtain ⟨e, he, hget, hkind, hch⟩ :=
        ih ((exportVideos draw topic sk.name sk.description sk.videos.length
          sk.videos 0 (generateUUID draw k).2).2.2) i (Nat.lt_of_succ_lt_succ h)
      refine ⟨e, List.mem_append.mpr (Or.inr (List.mem_cons_of_mem _ he)),
        hget, hkind, hch⟩

set_option maxHeartbeats 2000000 in
/-- Claim C3 (counterexample to the claim as stated): under the
constant-zero outcome of the random source, a course with one skill and no
videos exports two entities sharing one id, and that id appears in the root
entity's children — so an id occurring in a children list can match two
entities, not exactly one. -/
theorem c3_counterexample :
    (exportToTrainstation zeroDraw oneSkillNoVideos).entities.length = 2
    ∧ ((exportToTrainstation zeroDraw oneSkillNoVideos).entities.map Entity.id) =
        [zeroUUID, zeroUUID]
    ∧ (exportToTrainstation zeroDraw oneSkillNoVideos).entities.get? 1 =
        some (Entity.mk zeroUUID "root" "public" [] [zeroUUID] "T"
          "AI-genererad kurs om T" none none none) := by
  refine ⟨by decide, by decide, by decide⟩

/-- Claim C3 as amended: for every course with `n` skills where skill `i`
has `v_i` videos, the export holds exactly `1 + n + (v_1 + ... + v_n)`
entities; the root entity is the last one, carries the export's root id,
and its children list has length `n`; a skill with zero videos still yields
a section entity (named by the root's child id at that skill's position)
with `children = []`; every id occurring in any entity's children list
matches at least one entity of the graph (no orphans), and exactly one
whenever the generated ids are pairwise distinct — which is not guaranteed
for every outcome of the random source. -/
theorem c3_export_graph (draw : Nat → Nat) (course : Course) :
    (exportToTrainstation draw course).entities.length =
      1 + course.skills.length + ((course.skills.map (fun sk => sk.videos.length)).sum)
    ∧ (∃ r, (exportToTrainstation draw course).entities.getLast? = some r
        ∧ r.id = (exportToTrainstation draw course).root
        ∧ r.kind = "root"
        ∧ r.children.length = course.skills.length
        ∧ (∀ (i : Nat) (h : i < course.skills.length),
            (course.skills.get ⟨i, h⟩).videos = [] →
            ∃ e ∈ (exportToTrainstation draw course).entities,
              r.children.get? i = some e.id ∧ e.kind = "section" ∧ e.children = []))
    ∧ (∀ e ∈ (exportToTrainstation draw course).entities,
        ∀ c ∈ e.children,
          ∃ e2 ∈ (exportToTrainstation draw course).entities, e2.id = c)
    ∧ (((exportToTrainstation draw course).entities.map Entity.id).Nodup →
        ∀ e ∈ (exportToTrainstation draw course).entities,
        ∀ c ∈ e.children,
          ∃! e2, e2 ∈ (exportToTrainstation draw course).entities ∧ e2.id = c) := by
  have horph : ∀ e ∈ (exportToTrainstation draw course).entities,
      ∀ c ∈ e.children,
        ∃ e2 ∈ (exportToTrainstation draw course).entities, e2.id = c := by
    intro e he c hc
    unfold exportToTrainstation at he ⊢
    rcases List.mem_append.mp he with hin | hroot
    · obtain ⟨e2, he2, hid⟩ := exportSkills_no_orphans draw course.topic
        course.skills _ e hin c hc
      exact ⟨e2, List.mem_append.mpr (Or.inl he2), hid⟩
    · rw [List.mem_singleton.mp hroot] at hc
      obtain ⟨e2, he2, hid⟩ := exportSkills_sids_exist draw course.topic
        course.skills _ c hc
      exact ⟨e2, List.mem_append.mpr (Or.inl he2), hid⟩
  refine ⟨?_, ?_, horph, ?_⟩
  · unfold exportToTrainstation
    simp only [List.length_append, List.length_cons, List.length_nil,
      exportSkills_length]
    omega
  · refine ⟨Entity.mk (generateUUID draw 0).1 "root" "public" []
        ((exportSkills draw course.topic course.skills (generateUUID draw 0).2).2.1)
        course.topic ("AI-genererad kurs om " ++ course.topic) none none none,
        ?_, rfl, rfl, ?_, ?_⟩
    · show ((exportSkills draw course.topic course.skills (generateUUID draw 0).2).1 ++
          [Entity.mk (generateUUID draw 0).1 "root" "public" []
            ((exportSkills draw course.topic course.skills (generateUUID draw 0).2).2.1)
            course.topic ("AI-genererad kurs om " ++ course.topic) none none none]).getLast?
        = some (Entity.mk (generateUUID draw 0).1 "root" "public" []
            ((exportSkills draw course.topic course.skills (generateUUID draw 0).2).2.1)
            course.topic ("AI-genererad kurs om " ++ course.topic) none none none)
      exact List.getLast?_concat _
    · exact exportSkills_sids_length draw course.topic course.skills _
    · intro i h hv
      obtain ⟨e, he, hget, hkind, hch⟩ := exportSkills_section_at draw course.topic
        course.skills ((generateUUID draw 0).2) i h
      refine ⟨e, ?_, hget, hkind, hch hv⟩
      show e ∈ (exportToTrainstation draw course).entities
      unfold exportToTrainstation
      exact List.mem_append.mpr (Or.inl he)
  · intro hnodup e he c hc
    obtain ⟨e2, he2, hid⟩ := horph e he c hc
    refine ⟨e2, ⟨he2, hid⟩, ?_⟩
    intro y hy
    exact List.inj_on_of_nodup_map hnodup hy.1 he2 (by rw [hy.2, hid])

/-- Witness for C3: under the identity random stream (all ids distinct in
this call), the one-skill zero-video course yields two entities, and its
zero-video skill yields a section entity with empty children. -/
theorem c3_export_graph_witness :
    (exportToTrainstation (fun n => n) oneSkillNoVideos).entities.length = 1 + 1 + 0
    ∧ ∃ e ∈ (exportToTrainstation (fun n => n) oneSkillNoVideos).entities,
        e.kind = "section" ∧ e.children = [] := by
  refine ⟨(c3_export_graph (fun n => n) oneSkillNoVideos).1, ?_⟩
  obtain ⟨r, hlast, hid, hkind, hlen, hsec⟩ :=
    (c3_export_graph (fun n => n) oneSkillNoVideos).2.1
  obtain ⟨e, he, hcid, hk, hch⟩ := hsec 0 (by decide) rfl
  exact ⟨e, he, hk, hch⟩

end CourseCreator
